import Mathlib

/-!
Shallow embedding of the libafl_fuzzilli coverage-guided fuzzing core
(src/libafl_fuzzilli/src/lib.rs, pss.rs, qs.rs) and proofs about it.

Machine bytes (u8) are modelled as Nat; Rust panics (failed asserts,
out-of-bounds indexing, .expect/.unwrap) are modelled as Option.none or
Except.error; f64 arithmetic is modelled over the exact rationals ℚ.
Parts of the behaviour that live in the external libafl crate (the
scheduler internals) are modelled from the specification and marked as
such in their doc comments.
-/

namespace OptFuzzilli

/-- Fuelled population count helper (structural recursion so that the
kernel can evaluate it). -/
def countOnesAux : Nat → Nat → Nat
  | 0, _ => 0
  | fuel + 1, n => if n = 0 then 0 else n % 2 + countOnesAux fuel (n / 2)

/-- Population count of a natural number; models u8::count_ones from the
source (the fuel n always suffices since n halves at each step). -/
def countOnes (n : Nat) : Nat := countOnesAux n n

/-- Sum of population counts over a list of bytes. -/
def popSum (l : List Nat) : Nat := (l.map countOnes).sum

/-- The unsigned 32-bit little-endian value of the first four bytes of a
buffer, as in u32::from_le_bytes over map[0..4]
(src/libafl_fuzzilli/src/lib.rs line 80). -/
def numEdgesOf (map : List Nat) : Nat :=
  map.getD 0 0 + 256 * map.getD 1 0 + 65536 * map.getD 2 0 + 16777216 * map.getD 3 0

/-- Embeds struct FuzzilliCoverageObserver
(src/libafl_fuzzilli/src/lib.rs lines 64-71). -/
structure FuzzilliCoverageObserver where
  name : String
  map : List Nat
  num_edges : Nat
  initial : Nat
  deriving DecidableEq

/-- Embeds FuzzilliCoverageObserver::new
(src/libafl_fuzzilli/src/lib.rs lines 75-92). The two panic branches are
modelled as none. Note the size check uses floor division num_edges / 8,
exactly as the source does. -/
def FuzzilliCoverageObserver.new (name : String) (map : List Nat) :
    Option FuzzilliCoverageObserver :=
  if map.length < 4 then none
  else
    let num_edges := numEdgesOf map
    if map.length < 4 + num_edges / 8 then none
    else some { name := name, map := map, num_edges := num_edges, initial := 0 }

/-- Embeds MapObserver::get for FuzzilliCoverageObserver
(src/libafl_fuzzilli/src/lib.rs lines 123-131). A Rust out-of-bounds
index panic is modelled as none. -/
def FuzzilliCoverageObserver.get (o : FuzzilliCoverageObserver) (idx : Nat) :
    Option Nat :=
  if idx ≥ o.num_edges then some 0
  else
    match o.map.get? (4 + idx / 8) with
    | some b => some ((b >>> (idx % 8)) &&& 1)
    | none => none

/-- Embeds MapObserver::set for FuzzilliCoverageObserver
(src/libafl_fuzzilli/src/lib.rs lines 133-143). The u8 complement
!(1 << bit_idx) is 255 ^^^ (1 <<< bit_idx); an out-of-bounds index panic
is modelled as none. -/
def FuzzilliCoverageObserver.set (o : FuzzilliCoverageObserver)
    (idx value : Nat) : Option FuzzilliCoverageObserver :=
  if idx < o.num_edges then
    match o.map.get? (4 + idx / 8) with
    | some b =>
      let nb := if value ≠ 0 then b ||| (1 <<< (idx % 8))
                else b &&& (255 ^^^ (1 <<< (idx % 8)))
      some { o with map := o.map.set (4 + idx / 8) nb }
    | none => none
  else some o

/-- Embeds MapObserver::count_bytes
(src/libafl_fuzzilli/src/lib.rs lines 149-151): the popcount of every
byte of the stored buffer, header included. -/
def FuzzilliCoverageObserver.count_bytes (o : FuzzilliCoverageObserver) : Nat :=
  popSum o.map

/-- Embeds MapObserver::reset_map
(src/libafl_fuzzilli/src/lib.rs lines 153-156): self.map.fill(0), which
zeroes every byte of the buffer, the 4-byte header included. -/
def FuzzilliCoverageObserver.reset_map (o : FuzzilliCoverageObserver) :
    FuzzilliCoverageObserver :=
  { o with map := List.replicate o.map.length 0 }

/-- Loop body of MapObserver::to_vec
(src/libafl_fuzzilli/src/lib.rs lines 162-168): pushes get(idx) for idx
in 0..n; a panic inside get aborts the loop (none). -/
def FuzzilliCoverageObserver.to_vec_aux (o : FuzzilliCoverageObserver) :
    Nat → Option (List Nat)
  | 0 => some []
  | n + 1 =>
    match o.to_vec_aux n, o.get n with
    | some v, some b => some (v ++ [b])
    | _, _ => none

/-- Embeds MapObserver::to_vec of the main variant
(src/libafl_fuzzilli/src/lib.rs lines 162-168). -/
def FuzzilliCoverageObserver.to_vec (o : FuzzilliCoverageObserver) :
    Option (List Nat) :=
  o.to_vec_aux o.num_edges

/-- Embeds MapObserver::to_vec of the pss.rs variant
(src/libafl_fuzzilli/pss.rs lines 165-167): self.map.clone(), the raw
buffer itself. -/
def FuzzilliCoverageObserver.to_vec_pss (o : FuzzilliCoverageObserver) :
    List Nat :=
  o.map

/-- Typed errors of the taxonomy that the embedded operations can report
(libafl Error values are abstracted to their kind). -/
inductive SchedError where
  | emptyCorpus
  | notFound
  deriving DecidableEq

/-- Embeds UniformDistribution::compute of the main variant
(src/libafl_fuzzilli/src/lib.rs lines 31-57). The observer argument is
the metadata-map lookup result, the input argument is testcase.input();
f64 arithmetic is modelled over ℚ. The source always returns Ok, so the
result is a plain rational. -/
def UniformDistribution.compute (observer : Option FuzzilliCoverageObserver)
    (input : Option (List Nat)) : ℚ :=
  match observer with
  | none => 0.25
  | some obs =>
    match input with
    | none => 0.25
    | some inp =>
      let coverage_count : ℚ := (obs.count_bytes : ℚ)
      let input_length : ℚ := (inp.length : ℚ)
      max (coverage_count * 10 - input_length * (1 / 10)) 1

/-- Embeds UniformDistribution::compute of the pss.rs variant
(src/libafl_fuzzilli/pss.rs lines 34-47): a missing observer is a typed
key-not-found error, a missing input falls back to length 0. -/
def UniformDistributionPss.compute (observer : Option FuzzilliCoverageObserver)
    (input : Option (List Nat)) : Except SchedError ℚ :=
  match observer with
  | none => Except.error SchedError.notFound
  | some obs =>
    let coverage_count : ℚ := (obs.count_bytes : ℚ)
    let input_length : ℚ := ((input.map (fun i => (i.length : ℚ))).getD 0)
    Except.ok (max (coverage_count * 10 - input_length * (1 / 10)) 1)

/-- A corpus entry: the raw payload plus the optional parent lineage that
a scheduler on_add hook may record (Testcase::new sets no parent). -/
structure CorpusEntry where
  bytes : List Nat
  parent : Option Nat
  deriving DecidableEq

/-- Round-robin scheduler bookkeeping: last returned id, runs in the
current cycle, completed cycles. -/
structure QueueState where
  current : Option Nat
  runs : Nat
  cycles : Nat
  deriving DecidableEq

/-- Embeds enum SchedulerEnum (src/libafl_fuzzilli/src/lib.rs lines
175-190); the two composite variants wrap an inner QueueScheduler. -/
inductive SchedulerEnum where
  | uniformProbability (meta : List (Nat × ℚ)) (total : ℚ)
  | queue (qs : QueueState)
  | coverageAccounting (qs : QueueState)
  | indexesLenTimeMinimizer (qs : QueueState)
  deriving DecidableEq

/-- Embeds struct LibAflObject (src/libafl_fuzzilli/src/lib.rs lines
193-198). Entry ids are positions in the corpus list (libafl assigns
progressive ids); the observer field is the coverage snapshot inserted
into the state metadata map at construction (lib.rs line 260). -/
structure LibAflObject where
  corpus : List CorpusEntry
  scheduler : SchedulerEnum
  observer : FuzzilliCoverageObserver
  deriving DecidableEq

/-- Modelled from the spec: QueueScheduler::next lives in the external
libafl crate, not under src/. Per spec section 4.3: EmptyCorpus when the
store has zero entries; otherwise the successor of current in ascending
id order, wrapping to the first id; increments runs_in_current_cycle,
rolling it into cycle_count at a full pass; sets current to the selected
id. -/
def queueNext (count : Nat) (qs : QueueState) :
    Except SchedError (Nat × QueueState) :=
  if count = 0 then Except.error SchedError.emptyCorpus
  else
    let nextId :=
      match qs.current with
      | none => 0
      | some c => if c + 1 < count then c + 1 else 0
    let runs := qs.runs + 1
    if runs ≥ count then
      Except.ok (nextId, { current := some nextId, runs := 0, cycles := qs.cycles + 1 })
    else
      Except.ok (nextId, { current := some nextId, runs := runs, cycles := qs.cycles })

/-- Modelled from the spec: QueueScheduler::on_add lives in the external
libafl crate, not under src/. Per spec section 4.3 it records
parent_id = current_id on the newly added entry. -/
def queueOnAdd (corpus : List CorpusEntry) (qs : QueueState) (id : Nat) :
    List CorpusEntry :=
  match corpus.get? id with
  | some e => corpus.set id { e with parent := qs.current }
  | none => corpus

/-- Cumulative-interval lookup for weighted sampling: first entry whose
cumulative score interval contains the draw. -/
def weightedPick : List (Nat × ℚ) → ℚ → Option Nat
  | [], _ => none
  | (id, s) :: rest, r => if r < s then some id else weightedPick rest (r - s)

/-- Modelled from the spec: ProbabilitySamplingScheduler::next lives in
the external libafl crate, not under src/. Per spec section 4.4:
EmptyCorpus when the store or the metadata table is empty; otherwise the
id whose cumulative score interval contains the random draw r. -/
def uniformNext (count : Nat) (meta : List (Nat × ℚ)) (r : ℚ) :
    Except SchedError Nat :=
  if count = 0 ∨ meta.isEmpty then Except.error SchedError.emptyCorpus
  else
    match weightedPick meta r with
    | some id => Except.ok id
    | none => Except.error SchedError.notFound

/-- Modelled from the spec: ProbabilitySamplingScheduler::on_add lives in
the external libafl crate, not under src/. Per spec section 4.4 it
computes the entry's score via the score function (the src
UniformDistribution::compute), inserts (id, score) into the probability
metadata and adds the score to the running total. -/
def uniformOnAdd (obj : LibAflObject) (meta : List (Nat × ℚ)) (total : ℚ)
    (id : Nat) : LibAflObject :=
  let score := UniformDistribution.compute (some obj.observer)
    ((obj.corpus.get? id).map CorpusEntry.bytes)
  { obj with scheduler :=
      SchedulerEnum.uniformProbability (meta ++ [(id, score)]) (total + score) }

/-- Embeds LibAflObject::add_input (src/libafl_fuzzilli/src/lib.rs lines
286-302): Testcase::new (no parent), corpus add assigning the next id,
then on_add only in the UniformProbability arm; the catch-all arm for the
other scheduler kinds does nothing. -/
def LibAflObject.add_input (obj : LibAflObject) (input_data : List Nat) :
    LibAflObject :=
  match obj.scheduler with
  | SchedulerEnum.uniformProbability meta total =>
    uniformOnAdd
      { obj with corpus := obj.corpus ++ [⟨input_data, none⟩] }
      meta total obj.corpus.length
  | _ => { obj with corpus := obj.corpus ++ [⟨input_data, none⟩] }

/-- The enum dispatch inside LibAflObject::suggest_next_input
(src/libafl_fuzzilli/src/lib.rs lines 309-314): each arm calls the active
scheduler's next; the composite variants delegate selection to their
inner QueueScheduler (spec section 4.4); r is the random draw of the
weighted variant. -/
def schedNext (sched : SchedulerEnum) (count : Nat) (r : ℚ) :
    Except SchedError (Nat × SchedulerEnum) :=
  match sched with
  | SchedulerEnum.uniformProbability meta total =>
    match uniformNext count meta r with
    | Except.ok id => Except.ok (id, SchedulerEnum.uniformProbability meta total)
    | Except.error e => Except.error e
  | SchedulerEnum.queue qs =>
    match queueNext count qs with
    | Except.ok (id, qs1) => Except.ok (id, SchedulerEnum.queue qs1)
    | Except.error e => Except.error e
  | SchedulerEnum.coverageAccounting qs =>
    match queueNext count qs with
    | Except.ok (id, qs1) => Except.ok (id, SchedulerEnum.coverageAccounting qs1)
    | Except.error e => Except.error e
  | SchedulerEnum.indexesLenTimeMinimizer qs =>
    match queueNext count qs with
    | Except.ok (id, qs1) => Except.ok (id, SchedulerEnum.indexesLenTimeMinimizer qs1)
    | Except.error e => Except.error e

/-- Embeds LibAflObject::suggest_next_input
(src/libafl_fuzzilli/src/lib.rs lines 305-320). The .expect on the
scheduler result and the .unwrap on the corpus lookup are panics,
modelled as none; on success the payload bytes and the updated object are
returned. -/
def LibAflObject.suggest_next_input (obj : LibAflObject) (r : ℚ) :
    Option (List Nat × LibAflObject) :=
  match schedNext obj.scheduler obj.corpus.length r with
  | Except.error _ => none
  | Except.ok (id, sched1) =>
    match obj.corpus.get? id with
    | none => none
    | some entry => some (entry.bytes, { obj with scheduler := sched1 })

/-- Embeds LibAflObject::count (src/libafl_fuzzilli/src/lib.rs lines
322-325). -/
def LibAflObject.count (obj : LibAflObject) : Nat :=
  obj.corpus.length

/-- Embeds LibAflObject::get_element (src/libafl_fuzzilli/src/lib.rs
lines 343-356): unknown ids yield an empty payload. -/
def LibAflObject.get_element (obj : LibAflObject) (id : Nat) : List Nat :=
  match obj.corpus.get? id with
  | some e => e.bytes
  | none => []

/-- Concrete observer over the spec's scenario buffer
[0x08, 0x00, 0x00, 0x00, 0b00000101] (num_edges = 8), as produced by
FuzzilliCoverageObserver::new. -/
def obsC : FuzzilliCoverageObserver := ⟨"fuzzilli_coverage", [8, 0, 0, 0, 5], 8, 0⟩

/-- Concrete driver object with an empty corpus and the QueueScheduler. -/
def objEQ : LibAflObject := ⟨[], SchedulerEnum.queue ⟨none, 0, 0⟩, obsC⟩

/-- Concrete driver object with an empty corpus and the weighted
sampling scheduler. -/
def objU0 : LibAflObject := ⟨[], SchedulerEnum.uniformProbability [] 0, obsC⟩

/-- Concrete driver object with one corpus entry, under the
QueueScheduler whose current id is 0. -/
def objQ1 : LibAflObject := ⟨[⟨[1], none⟩], SchedulerEnum.queue ⟨some 0, 1, 0⟩, obsC⟩

/-- The result of suggest_next_input on objQ1: the single entry wraps
around and a cycle completes. -/
def resQ1 : List Nat × LibAflObject :=
  ([1], { objQ1 with scheduler := SchedulerEnum.queue ⟨some 0, 0, 1⟩ })

/-- Popcount distributes over list concatenation. -/
lemma popSum_append (a b : List Nat) : popSum (a ++ b) = popSum a + popSum b := by
  simp [popSum]

/-- Inversion of a successful construction: the observer stores the
given buffer and the little-endian edge count, and the buffer holds at
least the 4-byte header. -/
lemma new_inv (name : String) (map : List Nat) (o : FuzzilliCoverageObserver)
    (h : FuzzilliCoverageObserver.new name map = some o) :
    o.map = map ∧ o.num_edges = numEdgesOf map ∧ 4 ≤ map.length := by
  unfold FuzzilliCoverageObserver.new at h
  by_cases h1 : map.length < 4
  · simp [h1] at h
  · by_cases h2 : map.length < 4 + numEdgesOf map / 8
    · simp [h1, h2] at h
    · simp [h1, h2] at h
      obtain rfl := h.symm
      exact ⟨rfl, rfl, Nat.le_of_not_lt h1⟩

/-- Reading a fully zeroed buffer at any index yields 0. -/
lemma getD_replicate_zero (n i : Nat) :
    (List.replicate n (0 : Nat)).getD i 0 = 0 := by
  by_cases h : i < n <;> simp [List.getD, List.getElem?_replicate, h]

/-- A fully zeroed buffer has popcount 0. -/
lemma popSum_replicate_zero (n : Nat) : popSum (List.replicate n 0) = 0 := by
  simp [popSum, List.map_replicate, countOnes, countOnesAux]

/-- When the buffer is long enough for the full bit region, get never
goes out of bounds on an in-range edge index. -/
lemma get_isSome_of_inbounds (o : FuzzilliCoverageObserver) (i : Nat)
    (hlen : 4 + (o.num_edges + 7) / 8 ≤ o.map.length) (hi : i < o.num_edges) :
    (o.get i).isSome := by
  have hb : 4 + i / 8 < o.map.length := by omega
  rw [FuzzilliCoverageObserver.get, if_neg (by omega)]
  rw [List.get?_eq_getElem?, List.getElem?_eq_getElem hb]
  rfl

/-- The to_vec loop materializes one element per edge whenever every
in-range get succeeds. -/
lemma to_vec_aux_spec (o : FuzzilliCoverageObserver) :
    ∀ n, (∀ i, i < n → (o.get i).isSome) →
    ∃ v, o.to_vec_aux n = some v ∧ v.length = n ∧ ∀ i, i < n → v.get? i = o.get i := by
  intro n
  induction n with
  | zero => exact fun _ => ⟨[], rfl, rfl, fun i hi => absurd hi (Nat.not_lt_zero i)⟩
  | succ k ih =>
    intro hall
    obtain ⟨v, hv, hlen, hget⟩ := ih (fun i hi => hall i (Nat.lt_succ_of_lt hi))
    obtain ⟨b, hb⟩ := Option.isSome_iff_exists.mp (hall k (Nat.lt_succ_self k))
    refine ⟨v ++ [b], ?_, by simp [hlen], ?_⟩
    · rw [FuzzilliCoverageObserver.to_vec_aux, hv, hb]
    · intro i hi
      rcases Nat.lt_succ_iff_lt_or_eq.mp hi with hik | rfl
      · rw [List.get?_eq_getElem?, List.getElem?_append_left (by omega),
          ← List.get?_eq_getElem?, hget i hik]
      · rw [hb, List.get?_eq_getElem?, ← hlen, List.getElem?_concat_length]

/-- add_input always appends exactly one parentless entry to the corpus,
whatever the active scheduler kind is. -/
lemma add_input_corpus_eq (obj : LibAflObject) (input : List Nat) :
    (obj.add_input input).corpus = obj.corpus ++ [⟨input, none⟩] := by
  cases h : obj.scheduler <;> simp [LibAflObject.add_input, uniformOnAdd, h]

/-- add_input never touches the coverage snapshot. -/
lemma add_input_observer_eq (obj : LibAflObject) (input : List Nat) :
    (obj.add_input input).observer = obj.observer := by
  cases h : obj.scheduler <;> simp [LibAflObject.add_input, uniformOnAdd, h]

/-- Looking up the freshly appended entry at the old length finds it. -/
lemma get_append_singleton_length (l : List CorpusEntry) (e : CorpusEntry) :
    (l ++ [e]).get? l.length = some e := by
  rw [List.get?_eq_getElem?, List.getElem?_concat_length]

/-- C1 counterexample: on the accepted buffer
[0x08, 0x00, 0x00, 0x00, 0b00000101], count_bytes returns 3, not the
claimed population count 2 of the byte range [4, 4 + ceil(8/8)): the set
bit of the header byte 0x08 is counted as well. -/
theorem count_set_range_counterexample :
    (FuzzilliCoverageObserver.new "fuzzilli_coverage" [8, 0, 0, 0, 5]).map
      FuzzilliCoverageObserver.count_bytes = some 3 ∧
    popSum ((([8, 0, 0, 0, 5] : List Nat).drop 4).take
      ((numEdgesOf [8, 0, 0, 0, 5] + 7) / 8)) = 2 ∧ (3 : Nat) ≠ 2 := by decide

/-- C1 (amended): for every coverage map accepted by construction,
count_bytes equals the population count of the WHOLE buffer: the claimed
byte range [4, 4 + ceil(num_edges/8)) plus the 4-byte header plus any
bytes past the coverage region. -/
theorem count_bytes_whole_buffer (name : String) (map : List Nat)
    (o : FuzzilliCoverageObserver)
    (h : FuzzilliCoverageObserver.new name map = some o) :
    o.count_bytes =
      popSum (map.take 4) +
        (popSum ((map.drop 4).take ((o.num_edges + 7) / 8)) +
          popSum ((map.drop 4).drop ((o.num_edges + 7) / 8))) := by
  obtain ⟨hm, -, -⟩ := new_inv name map o h
  calc o.count_bytes = popSum map := by rw [FuzzilliCoverageObserver.count_bytes, hm]
    _ = popSum (map.take 4 ++ map.drop 4) := by rw [List.take_append_drop]
    _ = popSum (map.take 4) + popSum (map.drop 4) := popSum_append _ _
    _ = _ := by
      have hsp : popSum (map.drop 4) =
          popSum ((map.drop 4).take ((o.num_edges + 7) / 8)) +
            popSum ((map.drop 4).drop ((o.num_edges + 7) / 8)) := by
        rw [← popSum_append, List.take_append_drop]
      rw [hsp]

/-- C1 witness: the decomposition evaluated on the concrete scenario
buffer. -/
theorem count_bytes_whole_buffer_witness :
    FuzzilliCoverageObserver.new "fuzzilli_coverage" [8, 0, 0, 0, 5] =
      some ⟨"fuzzilli_coverage", [8, 0, 0, 0, 5], 8, 0⟩ ∧
    (⟨"fuzzilli_coverage", [8, 0, 0, 0, 5], 8, 0⟩ : FuzzilliCoverageObserver).count_bytes =
      popSum (([8, 0, 0, 0, 5] : List Nat).take 4) +
        (popSum ((([8, 0, 0, 0, 5] : List Nat).drop 4).take ((8 + 7) / 8)) +
          popSum ((([8, 0, 0, 0, 5] : List Nat).drop 4).drop ((8 + 7) / 8))) :=
  ⟨by decide, count_bytes_whole_buffer "fuzzilli_coverage" [8, 0, 0, 0, 5]
    ⟨"fuzzilli_coverage", [8, 0, 0, 0, 5], 8, 0⟩ (by decide)⟩

/-- C2: the buffer [0x01, 0x00, 0x00, 0x00] (length 4, num_edges = 1)
violates length ≥ 4 + ceil(num_edges/8) = 5, yet construction accepts it
because the source checks length < 4 + num_edges/8 with floor division;
get(0) on the accepted map then indexes byte 4 out of bounds (panic). -/
theorem new_floor_check_accepts_short_buffer :
    FuzzilliCoverageObserver.new "fuzzilli_coverage" [1, 0, 0, 0] =
      some ⟨"fuzzilli_coverage", [1, 0, 0, 0], 1, 0⟩ ∧
    ([1, 0, 0, 0] : List Nat).length < 4 + (numEdgesOf [1, 0, 0, 0] + 7) / 8 ∧
    (FuzzilliCoverageObserver.new "fuzzilli_coverage" [1, 0, 0, 0]).bind
      (fun o => o.get 0) = none := by decide

/-- C3 counterexample: the pss.rs score function reports a typed
key-not-found error when no coverage map is available, instead of the
claimed fallback 0.25. -/
theorem pss_compute_missing_map_counterexample :
    UniformDistributionPss.compute none (some [1]) = Except.error SchedError.notFound ∧
    UniformDistributionPss.compute none (some [1]) ≠ Except.ok 0.25 :=
  ⟨rfl, fun h => Except.noConfusion h⟩

/-- C3 (amended): with a coverage map available both score variants
return max(count_set * 10 - len * 0.1, 1.0) (f64 modelled over ℚ), which
is never below the 1.0 floor; with no coverage map, the lib.rs variant
returns the fallback 0.25 while the pss.rs variant fails with a typed
key-not-found error. -/
theorem compute_score_formula (obs : FuzzilliCoverageObserver)
    (input : List Nat) (inp : Option (List Nat)) :
    UniformDistribution.compute (some obs) (some input) =
      max ((obs.count_bytes : ℚ) * 10 - (input.length : ℚ) * (1 / 10)) 1 ∧
    1 ≤ UniformDistribution.compute (some obs) (some input) ∧
    UniformDistribution.compute none inp = 0.25 ∧
    UniformDistributionPss.compute (some obs) (some input) =
      Except.ok (max ((obs.count_bytes : ℚ) * 10 - (input.length : ℚ) * (1 / 10)) 1) ∧
    UniformDistributionPss.compute none inp = Except.error SchedError.notFound :=
  ⟨rfl, le_max_right _ _, rfl, rfl, rfl⟩

/-- C4 counterexample: after reset_map on the map built from
[0x08, 0x00, 0x00, 0x00, 0b00000101], re-reading num_edges from the
buffer yields 0, not the original 8: fill(0) zeroes the header too. -/
theorem reset_map_header_counterexample :
    (FuzzilliCoverageObserver.new "fuzzilli_coverage" [8, 0, 0, 0, 5]).map
      (fun o => numEdgesOf o.reset_map.map) = some 0 ∧
    numEdgesOf [8, 0, 0, 0, 5] = 8 ∧ (0 : Nat) ≠ 8 := by decide

/-- C4 (amended): reset_map zeroes the ENTIRE buffer, the 4-byte header
included; the cached num_edges field is unchanged, but the coverage
count drops to 0 and num_edges re-read from the buffer is 0. -/
theorem reset_map_zeroes_whole_buffer (o : FuzzilliCoverageObserver) :
    o.reset_map.map = List.replicate o.map.length 0 ∧
    o.reset_map.num_edges = o.num_edges ∧
    o.reset_map.count_bytes = 0 ∧
    numEdgesOf o.reset_map.map = 0 := by
  refine ⟨rfl, rfl, popSum_replicate_zero _, ?_⟩
  show numEdgesOf (List.replicate o.map.length 0) = 0
  simp [numEdgesOf, getD_replicate_zero]

/-- C5: on the buffer [0x01, 0x00, 0x00, 0x00], accepted by construction
(floor-division size check), set(0, 1) and set(0, 0) both index byte 4
of the 4-byte buffer, out of bounds (panic), so the claimed round-trip
fails before get is even reached. -/
theorem roundtrip_oob_on_accepted_buffer :
    (FuzzilliCoverageObserver.new "fuzzilli_coverage" [1, 0, 0, 0]).isSome = true ∧
    (FuzzilliCoverageObserver.new "fuzzilli_coverage" [1, 0, 0, 0]).bind
      (fun o => o.set 0 1) = none ∧
    (FuzzilliCoverageObserver.new "fuzzilli_coverage" [1, 0, 0, 0]).bind
      (fun o => o.set 0 0) = none := by decide

/-- C6 counterexample: with an empty corpus, suggest_next_input panics
(modelled none) instead of surfacing EmptyCorpus, for both the queue and
the weighted scheduler variants. -/
theorem suggest_next_input_empty_corpus_counterexample :
    objEQ.suggest_next_input 0 = none ∧ objU0.suggest_next_input 0 = none :=
  ⟨rfl, rfl⟩

/-- C6 (amended): on an empty corpus both scheduler variants do return
the typed EmptyCorpus error, but suggest_next_input unwraps the result
with expect, converting the typed failure into a panic. -/
theorem empty_corpus_typed_error_but_panic (obj : LibAflObject) (r : ℚ)
    (h : obj.corpus = []) :
    (∀ qs, queueNext obj.corpus.length qs = Except.error SchedError.emptyCorpus) ∧
    (∀ meta, uniformNext obj.corpus.length meta r = Except.error SchedError.emptyCorpus) ∧
    obj.suggest_next_input r = none := by
  refine ⟨fun qs => by simp [queueNext, h], fun meta => by simp [uniformNext, h], ?_⟩
  cases hs : obj.scheduler <;>
    simp [LibAflObject.suggest_next_input, schedNext, queueNext, uniformNext, h, hs]

/-- C6 witness: the empty-corpus behaviour on a concrete driver object. -/
theorem empty_corpus_typed_error_but_panic_witness :
    objEQ.corpus = [] ∧
    ((∀ qs, queueNext objEQ.corpus.length qs = Except.error SchedError.emptyCorpus) ∧
     (∀ meta, uniformNext objEQ.corpus.length meta 0 = Except.error SchedError.emptyCorpus) ∧
     objEQ.suggest_next_input 0 = none) :=
  ⟨rfl, empty_corpus_typed_error_but_panic objEQ 0 rfl⟩

/-- C7 counterexample: under the QueueScheduler with current id 0,
add_input records the new entry with no parent and leaves the scheduler
state untouched; applying the scheduler's on_add (which would record
parent_id = 0) would change the corpus, so on_add was not triggered. -/
theorem add_input_skips_on_add_counterexample :
    (objQ1.add_input [5]).scheduler = objQ1.scheduler ∧
    (objQ1.add_input [5]).corpus.get? 1 = some ⟨[5], none⟩ ∧
    queueOnAdd (objQ1.add_input [5]).corpus ⟨some 0, 1, 0⟩ 1 ≠
      (objQ1.add_input [5]).corpus := by decide

/-- C7 (amended): add_input always appends the new parentless entry, but
it triggers on_add only when the active scheduler is the
UniformProbability variant (inserting the (id, score) metadata entry);
for every other scheduler kind the scheduler state is left untouched. -/
theorem add_input_on_add_dispatch (obj : LibAflObject) (input : List Nat) :
    (obj.add_input input).corpus = obj.corpus ++ [⟨input, none⟩] ∧
    (∀ meta total, obj.scheduler = SchedulerEnum.uniformProbability meta total →
      (obj.add_input input).scheduler =
        SchedulerEnum.uniformProbability
          (meta ++ [(obj.corpus.length,
            UniformDistribution.compute (some obj.observer) (some input))])
          (total + UniformDistribution.compute (some obj.observer) (some input))) ∧
    ((∀ meta total, obj.scheduler ≠ SchedulerEnum.uniformProbability meta total) →
      (obj.add_input input).scheduler = obj.scheduler) := by
  refine ⟨add_input_corpus_eq obj input, ?_, ?_⟩
  · intro meta total hu
    simp [LibAflObject.add_input, hu, uniformOnAdd, get_append_singleton_length]
  · intro hne
    cases h : obj.scheduler with
    | uniformProbability meta total => exact absurd h (hne meta total)
    | queue qs => simp [LibAflObject.add_input, h]
    | coverageAccounting qs => simp [LibAflObject.add_input, h]
    | indexesLenTimeMinimizer qs => simp [LibAflObject.add_input, h]

/-- C7 witness: the uniform-scheduler arm evaluated on a concrete empty
driver object. -/
theorem add_input_on_add_dispatch_witness :
    objU0.scheduler = SchedulerEnum.uniformProbability [] 0 ∧
    (objU0.add_input [1]).scheduler =
      SchedulerEnum.uniformProbability
        ([] ++ [(objU0.corpus.length,
          UniformDistribution.compute (some objU0.observer) (some [1]))])
        (0 + UniformDistribution.compute (some objU0.observer) (some [1])) :=
  ⟨rfl, (add_input_on_add_dispatch objU0 [1]).2.1 [] 0 rfl⟩

/-- C8 counterexample: the pss.rs to_vec on the map built from
[0x08, 0x00, 0x00, 0x00, 0b00000101] returns the raw 5-byte buffer
(length 5 ≠ num_edges 8, first element 8 ≠ get(0) = 1). -/
theorem to_vec_pss_raw_buffer_counterexample :
    (FuzzilliCoverageObserver.new "fuzzilli_coverage" [8, 0, 0, 0, 5]).map
      (fun o => (o.to_vec_pss.length, o.num_edges)) = some (5, 8) ∧
    (FuzzilliCoverageObserver.new "fuzzilli_coverage" [8, 0, 0, 0, 5]).map
      (fun o => o.to_vec_pss.get? 0) = some (some 8) ∧
    (FuzzilliCoverageObserver.new "fuzzilli_coverage" [8, 0, 0, 0, 5]).bind
      (fun o => o.get 0) = some 1 := by decide

/-- C8 (amended): whenever the buffer is long enough for the full bit
region, the main variant's to_vec returns exactly num_edges elements
with element i equal to get(i) in ascending edge order; the pss.rs
variant instead returns a copy of the entire raw buffer. -/
theorem to_vec_dense (o : FuzzilliCoverageObserver)
    (h : 4 + (o.num_edges + 7) / 8 ≤ o.map.length) :
    ∃ v, o.to_vec = some v ∧ v.length = o.num_edges ∧
      (∀ i, i < o.num_edges → v.get? i = o.get i) ∧ o.to_vec_pss = o.map := by
  obtain ⟨v, hv, hl, hg⟩ := to_vec_aux_spec o o.num_edges
    (fun i hi => get_isSome_of_inbounds o i h hi)
  exact ⟨v, hv, hl, hg, rfl⟩

/-- C8 witness: the dense vector property evaluated on the concrete
scenario observer. -/
theorem to_vec_dense_witness :
    4 + ((obsC.num_edges + 7) / 8) ≤ obsC.map.length ∧
    (∃ v, obsC.to_vec = some v ∧ v.length = obsC.num_edges ∧
      (∀ i, i < obsC.num_edges → v.get? i = obsC.get i) ∧ obsC.to_vec_pss = obsC.map) :=
  ⟨by decide, to_vec_dense obsC (by decide)⟩

/-- C9: for every coverage map and every edge index at or past
num_edges, get returns 0 without error and set is a no-op returning the
map unchanged. -/
theorem get_set_out_of_range (o : FuzzilliCoverageObserver) (idx value : Nat)
    (h : o.num_edges ≤ idx) :
    o.get idx = some 0 ∧ o.set idx value = some o := by
  constructor
  · simp [FuzzilliCoverageObserver.get, h]
  · simp [FuzzilliCoverageObserver.set, Nat.not_lt.mpr h]

/-- C9 witness: out-of-range access evaluated at edge index 8 of the
concrete 8-edge observer. -/
theorem get_set_out_of_range_witness :
    obsC.num_edges ≤ 8 ∧ (obsC.get 8 = some 0 ∧ obsC.set 8 1 = some obsC) :=
  ⟨by decide, get_set_out_of_range obsC 8 1 (by decide)⟩

/-- C10: the coverage snapshot held by the driver object is never
modified by add_input or by a successful suggest_next_input, and the
score function's result depends only on the snapshot and the input
length, so equal-length inputs always score equally. -/
theorem observer_snapshot_immutable (obj : LibAflObject)
    (input b1 b2 : List Nat) (r : ℚ) (res : List Nat × LibAflObject)
    (hs : obj.suggest_next_input r = some res) (hlen : b1.length = b2.length) :
    (obj.add_input input).observer = obj.observer ∧
    res.2.observer = obj.observer ∧
    UniformDistribution.compute (some obj.observer) (some b1) =
      UniformDistribution.compute (some obj.observer) (some b2) := by
  refine ⟨add_input_observer_eq obj input, ?_, ?_⟩
  · unfold LibAflObject.suggest_next_input at hs
    split at hs
    · exact Option.noConfusion hs
    · split at hs
      · exact Option.noConfusion hs
      · cases hs
        rfl
  · simp [UniformDistribution.compute, hlen]

/-- C10 witness: snapshot preservation evaluated on a concrete one-entry
queue-scheduled driver object. -/
theorem observer_snapshot_immutable_witness :
    objQ1.suggest_next_input 0 = some resQ1 ∧
    ([2] : List Nat).length = ([3] : List Nat).length ∧
    ((objQ1.add_input [9]).observer = objQ1.observer ∧
     resQ1.2.observer = objQ1.observer ∧
     UniformDistribution.compute (some objQ1.observer) (some [2]) =
       UniformDistribution.compute (some objQ1.observer) (some [3])) :=
  ⟨by decide, rfl, observer_snapshot_immutable objQ1 [9] [2] [3] 0 resQ1 (by decide) rfl⟩

end OptFuzzilli
